import Mathlib

/-!
Shallow embedding of the cost model in `runtime/src/cost_model.rs`.

The repository source under `src/` contains only `cost_model.rs`.  The
`ExecuteCostTable` it delegates to, the policy constants from
`block_cost_limits` (`SIGNATURE_COST`, `WRITE_LOCK_UNITS`, `DATA_BYTES_UNITS`,
`BUILT_IN_INSTRUCTION_COSTS`) and the SDK transaction type are outside `src/`;
they are modelled from the specification, as marked on each definition.

Machine integers: `u64` values are represented as `Nat`.  Plain Rust `+` / `*`
on `u64` (release profile) wraps modulo `2 ^ 64`, written explicitly as
`% U64MOD`; `u64::saturating_add` clamps at `U64MAX`.
-/

/-- The wrap-around modulus of `u64` arithmetic. -/
def U64MOD : Nat := 2 ^ 64

/-- The largest representable `u64` value, `u64::MAX`. -/
def U64MAX : Nat := 2 ^ 64 - 1

/-- Rust `u64::saturating_add`: addition that clamps at `u64::MAX` instead of
wrapping. -/
def saturating_add (a b : Nat) : Nat := min (a + b) U64MAX

/-- A program identifier (`Pubkey`): an opaque fixed-size key, modelled as a
natural number with decidable equality. -/
abbrev Pubkey := Nat

/-- Modelled from the spec: the external configuration constants of §6
(`block_cost_limits`, not under `src/`): `SIGNATURE_COST`,
`WRITE_LOCK_UNITS`, `DATA_BYTES_UNITS` and the built-in program cost baseline
table `BUILT_IN_INSTRUCTION_COSTS`.  The spec gives no concrete values
("provided by an external policy module, not owned by this core"), so the
embedding is parameterized over them. -/
structure Consts where
  SIGNATURE_COST : Nat
  WRITE_LOCK_UNITS : Nat
  DATA_BYTES_UNITS : Nat
  BUILT_IN_INSTRUCTION_COSTS : List (Pubkey × Nat)

/-- Modelled from the spec (§6): the structural fields of a
`SanitizedTransaction` that the cost model reads.  The SDK type is not under
`src/`; per the spec the input is "a transaction's signature count, ordered
account-key list with a per-index writability predicate (parameterized by a
write-lock-demotion boolean), and an ordered list of (program identifier,
instruction payload) pairs".  `instructions` pairs each program id with the
payload length `ix.data.len()`; `is_writable i demote` is the message's
`is_writable(i, demote_program_write_locks)` predicate. -/
structure SanitizedTransaction where
  numSignatures : Nat
  accountKeys : List Pubkey
  is_writable : Nat → Bool → Bool
  instructions : List (Pubkey × Nat)

/-- Rust `MAX_WRITABLE_ACCOUNTS` from `cost_model.rs` line 12. -/
def MAX_WRITABLE_ACCOUNTS : Nat := 256

/-- Rust `TransactionCost` from `cost_model.rs` lines 16-22: the writable-account
list plus the four `u64` cost fields. -/
structure TransactionCost where
  writable_accounts : List Pubkey
  signature_cost : Nat
  write_lock_cost : Nat
  data_bytes_cost : Nat
  execution_cost : Nat
deriving DecidableEq

/-- Rust `TransactionCost::new_with_capacity` (lines 25-30): all fields default;
the capacity argument is only a `Vec` allocation hint with no observable
semantics in the embedding. -/
def TransactionCost.new_with_capacity (_capacity : Nat) : TransactionCost :=
  { writable_accounts := []
    signature_cost := 0
    write_lock_cost := 0
    data_bytes_cost := 0
    execution_cost := 0 }

/-- Rust `TransactionCost::sum` (lines 40-42): the plain `u64` sum
`signature_cost + write_lock_cost + data_bytes_cost + execution_cost`,
left-associated, each addition wrapping modulo `2 ^ 64`. -/
def TransactionCost.sum (tc : TransactionCost) : Nat :=
  (((tc.signature_cost + tc.write_lock_cost) % U64MOD + tc.data_bytes_cost) % U64MOD
      + tc.execution_cost) % U64MOD

/-- Association-list lookup used by the table model. -/
def lookupCost : List (Pubkey × Nat) → Pubkey → Option Nat
  | [], _ => none
  | (k, v) :: rest, q => if k = q then some v else lookupCost rest q

/-- Number of occurrences of a value in a list of costs (used by the mode). -/
def countOcc (v : Nat) (l : List Nat) : Nat := (l.filter (fun x => x = v)).length

/-- Modelled from the spec: `ExecuteCostTable` (§3, §4.1; the real module is
not under `src/`): "a mapping from program identifier ... to an integer cost"
with a derived mode.  Modelled as an association list in which every key
occurs at most once; the incremental mode-tracking side structure is a
performance device, so the mode is modelled by direct computation over the
entries. -/
structure ExecuteCostTable where
  table : List (Pubkey × Nat)

/-- Modelled from the spec (§4.1): `get_cost(program_id) -> optional cost`,
"exact lookup, no fallback". -/
def ExecuteCostTable.get_cost (t : ExecuteCostTable) (k : Pubkey) : Option Nat :=
  lookupCost t.table k

/-- Modelled from the spec (§4.1, §8): `get_mode()` "returns the current
most-frequent cost, or a fixed default (0 ...) when the table is empty"; spec
§8 fixes the empty default to 0. -/
def ExecuteCostTable.get_mode (t : ExecuteCostTable) : Nat :=
  match t.table.map Prod.snd with
  | [] => 0
  | v :: vs =>
    (v :: vs).foldl
      (fun best x => if countOcc best (v :: vs) < countOcc x (v :: vs) then x else best) v

/-- Modelled from the spec (§4.1): `upsert(program_id, new_cost)`: "if
program_id has no existing entry, insert new_cost verbatim.  If an entry
exists with cost old_cost, replace it with the truncated average
(old_cost + new_cost) / 2 (integer division ...).  Returns the resulting
stored cost (not the input)."  Returns the updated table and the stored
cost. -/
def ExecuteCostTable.upsert (t : ExecuteCostTable) (k : Pubkey) (c : Nat) :
    ExecuteCostTable × Nat :=
  match t.get_cost k with
  | none => (⟨(k, c) :: t.table⟩, c)
  | some old =>
    let nc := (old + c) / 2
    (⟨t.table.map (fun p => if p.1 = k then (k, nc) else p)⟩, nc)

/-- Fold a list of (program id, cost) pairs through `upsert`, discarding the
returned costs (the call sites in `initialize_cost_table` only log them). -/
def ExecuteCostTable.upsertAll (t : ExecuteCostTable) (l : List (Pubkey × Nat)) :
    ExecuteCostTable :=
  l.foldl (fun t p => (t.upsert p.1 p.2).1) t

/-- Rust `CostModel` from `cost_model.rs` lines 46-48: it owns one
`ExecuteCostTable`. -/
structure CostModel where
  instruction_execution_cost_table : ExecuteCostTable

/-- Rust `CostModel::new` (lines 51-55): a default (empty) table. -/
def CostModel.new : CostModel := ⟨⟨[]⟩⟩

/-- Outcome of `upsert_instruction_cost`, modelling its Rust
`Result<u64, &'static str>`; `err` stands for
`Err("failed to upsert to ExecuteCostTable")`. -/
inductive UpsertOutcome where
  | ok (cost : Nat)
  | err
deriving DecidableEq

/-- Rust `CostModel::upsert_instruction_cost` (lines 103-114): upsert into the
table, then re-read `get_cost`; `Some` becomes `Ok` of the re-read cost,
`None` becomes the error. -/
def CostModel.upsert_instruction_cost (m : CostModel) (k : Pubkey) (cost : Nat) :
    CostModel × UpsertOutcome :=
  let t := (m.instruction_execution_cost_table.upsert k cost).1
  match t.get_cost k with
  | some c => (⟨t⟩, UpsertOutcome.ok c)
  | none => (⟨t⟩, UpsertOutcome.err)

/-- Rust `CostModel::initialize_cost_table` (lines 57-85): iterate the supplied
entries chained with `BUILT_IN_INSTRUCTION_COSTS` (built-ins after external
entries) and `upsert` each pair; the per-pair `Some`/`None` match only emits
debug logs. -/
def CostModel.initialize_cost_table (c : Consts) (m : CostModel)
    (cost_table : List (Pubkey × Nat)) : CostModel :=
  ⟨m.instruction_execution_cost_table.upsertAll
      (cost_table ++ c.BUILT_IN_INSTRUCTION_COSTS)⟩

/-- Rust `CostModel::find_instruction_cost` (lines 167-179): exact lookup, else
the table's mode. -/
def CostModel.find_instruction_cost (m : CostModel) (k : Pubkey) : Nat :=
  match m.instruction_execution_cost_table.get_cost k with
  | some cost => cost
  | none => m.instruction_execution_cost_table.get_mode

/-- Rust `CostModel::get_signature_cost` (lines 120-122):
`signatures().len() as u64 * SIGNATURE_COST`, a wrapping `u64` product. -/
def CostModel.get_signature_cost (c : Consts) (tx : SanitizedTransaction) : Nat :=
  tx.numSignatures * c.SIGNATURE_COST % U64MOD

/-- The `enumerate().for_each` loop body of `get_write_lock_cost`
(lines 131-138): at index `i`, if the account is writable push its key and
add `WRITE_LOCK_UNITS` (wrapping `u64` add) to `write_lock_cost`. -/
def writeLockLoop (c : Consts) (tx : SanitizedTransaction) (demote : Bool) :
    Nat → List Pubkey → TransactionCost → TransactionCost
  | _, [], tc => tc
  | i, k :: rest, tc =>
    let tc :=
      if tx.is_writable i demote then
        { tc with
          writable_accounts := tc.writable_accounts ++ [k]
          write_lock_cost := (tc.write_lock_cost + c.WRITE_LOCK_UNITS) % U64MOD }
      else tc
    writeLockLoop c tx demote (i + 1) rest tc

/-- Rust `CostModel::get_write_lock_cost` (lines 124-139): run the loop over the
message's account keys from index 0. -/
def CostModel.get_write_lock_cost (c : Consts) (tx_cost : TransactionCost)
    (tx : SanitizedTransaction) (demote_program_write_locks : Bool) : TransactionCost :=
  writeLockLoop c tx demote_program_write_locks 0 tx.accountKeys tx_cost

/-- Rust `CostModel::get_data_bytes_cost` (lines 141-150): accumulate
`ix.data.len() as u64 / DATA_BYTES_UNITS` over the instructions with plain
(wrapping) `u64` addition. -/
def CostModel.get_data_bytes_cost (c : Consts) (tx : SanitizedTransaction) : Nat :=
  tx.instructions.foldl (fun acc p => (acc + p.2 / c.DATA_BYTES_UNITS) % U64MOD) 0

/-- Rust `CostModel::get_transaction_cost` (lines 152-165): accumulate
`find_instruction_cost` of each instruction's program id with
`saturating_add`. -/
def CostModel.get_transaction_cost (m : CostModel) (tx : SanitizedTransaction) : Nat :=
  tx.instructions.foldl (fun cost p => saturating_add cost (m.find_instruction_cost p.1)) 0

/-- Rust `CostModel::calculate_cost` (lines 87-101): build a `TransactionCost`
with capacity `MAX_WRITABLE_ACCOUNTS` and fill the four fields in order. -/
def CostModel.calculate_cost (c : Consts) (m : CostModel) (tx : SanitizedTransaction)
    (demote_program_write_locks : Bool) : TransactionCost :=
  let tx_cost := TransactionCost.new_with_capacity MAX_WRITABLE_ACCOUNTS
  let tx_cost := { tx_cost with signature_cost := CostModel.get_signature_cost c tx }
  let tx_cost := CostModel.get_write_lock_cost c tx_cost tx demote_program_write_locks
  let tx_cost := { tx_cost with data_bytes_cost := CostModel.get_data_bytes_cost c tx }
  { tx_cost with execution_cost := CostModel.get_transaction_cost m tx }

/-- Specification-side characterization: the keys of the writable accounts,
in iteration order, starting the index count at `i`.  Used to compare the
imperative loop of `get_write_lock_cost` against the spec's description
"for every writable account, append it ... (preserving iteration order)". -/
def writableKeys (tx : SanitizedTransaction) (demote : Bool) :
    Nat → List Pubkey → List Pubkey
  | _, [] => []
  | i, k :: rest =>
    (if tx.is_writable i demote then [k] else []) ++ writableKeys tx demote (i + 1) rest

/-! ### Helper lemmas -/

lemma U64MOD_pos : 0 < U64MOD := by
  unfold U64MOD; positivity

lemma lookupCost_map_replace_self {l : List (Pubkey × Nat)} {k : Pubkey} {old nc : Nat}
    (h : lookupCost l k = some old) :
    lookupCost (l.map (fun p => if p.1 = k then (k, nc) else p)) k = some nc := by
  induction l with
  | nil => simp [lookupCost] at h
  | cons p rest ih =>
    obtain ⟨a, b⟩ := p
    rw [List.map_cons]
    by_cases hak : a = k
    · subst hak
      rw [show (if (a, b).1 = a then (a, nc) else (a, b)) = (a, nc) from if_pos rfl]
      simp [lookupCost]
    · rw [show (if (a, b).1 = k then (k, nc) else (a, b)) = (a, b) from if_neg hak]
      simp only [lookupCost, if_neg hak] at h ⊢
      exact ih h

lemma lookupCost_map_replace_ne {l : List (Pubkey × Nat)} {k q : Pubkey} {nc : Nat}
    (h : q ≠ k) :
    lookupCost (l.map (fun p => if p.1 = k then (k, nc) else p)) q = lookupCost l q := by
  induction l with
  | nil => simp [lookupCost]
  | cons p rest ih =>
    obtain ⟨a, b⟩ := p
    rw [List.map_cons]
    by_cases hak : a = k
    · subst hak
      rw [show (if (a, b).1 = a then (a, nc) else (a, b)) = (a, nc) from if_pos rfl]
      have hne : ¬ a = q := fun hh => h hh.symm
      simp only [lookupCost, if_neg hne]
      exact ih
    · rw [show (if (a, b).1 = k then (k, nc) else (a, b)) = (a, b) from if_neg hak]
      simp only [lookupCost]
      by_cases haq : a = q
      · rw [if_pos haq, if_pos haq]
      · rw [if_neg haq, if_neg haq]
        exact ih

lemma get_cost_upsert_self (t : ExecuteCostTable) (k : Pubkey) (c : Nat) :
    (t.upsert k c).1.get_cost k = some ((t.upsert k c).2) := by
  unfold ExecuteCostTable.upsert
  cases h : t.get_cost k with
  | none => simp [ExecuteCostTable.get_cost, lookupCost]
  | some old =>
    simp only [ExecuteCostTable.get_cost] at h ⊢
    simpa using lookupCost_map_replace_self h

lemma get_cost_upsert_ne (t : ExecuteCostTable) {k q : Pubkey} (c : Nat) (h : q ≠ k) :
    (t.upsert k c).1.get_cost q = t.get_cost q := by
  unfold ExecuteCostTable.upsert
  cases hk : t.get_cost k with
  | none =>
    have hne : ¬ k = q := fun hh => h hh.symm
    simp [ExecuteCostTable.get_cost, lookupCost, hne]
  | some old =>
    simp only [ExecuteCostTable.get_cost]
    exact lookupCost_map_replace_ne h

lemma upsert_snd (t : ExecuteCostTable) (k : Pubkey) (c : Nat) :
    (t.upsert k c).2
      = match t.get_cost k with
        | none => c
        | some old => (old + c) / 2 := by
  unfold ExecuteCostTable.upsert
  cases t.get_cost k <;> rfl

lemma upsertAll_nil (t : ExecuteCostTable) : t.upsertAll [] = t := rfl

lemma upsertAll_cons (t : ExecuteCostTable) (p : Pubkey × Nat) (l : List (Pubkey × Nat)) :
    t.upsertAll (p :: l) = ((t.upsert p.1 p.2).1).upsertAll l := rfl

lemma upsertAll_append (t : ExecuteCostTable) (l1 l2 : List (Pubkey × Nat)) :
    t.upsertAll (l1 ++ l2) = (t.upsertAll l1).upsertAll l2 := by
  unfold ExecuteCostTable.upsertAll
  exact List.foldl_append _ _ _ _

lemma upsertAll_get_cost_not_mem {l : List (Pubkey × Nat)} {k : Pubkey}
    (h : k ∉ l.map Prod.fst) :
    ∀ t : ExecuteCostTable, (t.upsertAll l).get_cost k = t.get_cost k := by
  induction l with
  | nil => intro t; rfl
  | cons p rest ih =>
    intro t
    simp only [List.map_cons, List.mem_cons, not_or] at h
    rw [upsertAll_cons, ih h.2, get_cost_upsert_ne _ _ (fun hh => h.1 hh)]

lemma upsertAll_get_cost_isSome {l : List (Pubkey × Nat)} {k : Pubkey} :
    ∀ t : ExecuteCostTable, (t.get_cost k).isSome → ((t.upsertAll l).get_cost k).isSome := by
  induction l with
  | nil => intro t h; exact h
  | cons p rest ih =>
    intro t h
    rw [upsertAll_cons]
    apply ih
    by_cases hk : k = p.1
    · subst hk
      rw [get_cost_upsert_self]
      rfl
    · rw [get_cost_upsert_ne _ _ hk]
      exact h

lemma upsertAll_mem_isSome {l : List (Pubkey × Nat)} {k : Pubkey}
    (h : k ∈ l.map Prod.fst) :
    ∀ t : ExecuteCostTable, ((t.upsertAll l).get_cost k).isSome := by
  induction l with
  | nil => simp at h
  | cons p rest ih =>
    intro t
    simp only [List.map_cons, List.mem_cons] at h
    rw [upsertAll_cons]
    by_cases hk : k = p.1
    · subst hk
      apply upsertAll_get_cost_isSome
      rw [get_cost_upsert_self]
      rfl
    · exact ih (h.resolve_left hk) _

lemma writeLockLoop_writable_accounts (c : Consts) (tx : SanitizedTransaction) (d : Bool) :
    ∀ (ks : List Pubkey) (i : Nat) (tc : TransactionCost),
      (writeLockLoop c tx d i ks tc).writable_accounts
        = tc.writable_accounts ++ writableKeys tx d i ks := by
  intro ks
  induction ks with
  | nil => intro i tc; simp [writeLockLoop, writableKeys]
  | cons k rest ih =>
    intro i tc
    by_cases hw : tx.is_writable i d
    · simp [writeLockLoop, writableKeys, hw, ih]
    · simp [writeLockLoop, writableKeys, hw, ih]

lemma writeLockLoop_cost (c : Consts) (tx : SanitizedTransaction) (d : Bool) :
    ∀ (ks : List Pubkey) (i : Nat) (tc : TransactionCost),
      tc.write_lock_cost < U64MOD →
      (writeLockLoop c tx d i ks tc).write_lock_cost
        = (tc.write_lock_cost + c.WRITE_LOCK_UNITS * (writableKeys tx d i ks).length)
            % U64MOD := by
  intro ks
  induction ks with
  | nil =>
    intro i tc h
    simp [writeLockLoop, writableKeys, Nat.mod_eq_of_lt h]
  | cons k rest ih =>
    intro i tc h
    simp only [writeLockLoop, writableKeys]
    by_cases hw : tx.is_writable i d
    · rw [if_pos hw, if_pos hw, ih _ _ (Nat.mod_lt _ U64MOD_pos)]
      simp only [List.singleton_append, List.length_cons]
      rw [Nat.mod_add_mod]
      congr 1
      ring
    · rw [if_neg hw, if_neg hw, ih _ _ h]
      simp

lemma writeLockLoop_signature_cost (c : Consts) (tx : SanitizedTransaction) (d : Bool) :
    ∀ (ks : List Pubkey) (i : Nat) (tc : TransactionCost),
      (writeLockLoop c tx d i ks tc).signature_cost = tc.signature_cost := by
  intro ks
  induction ks with
  | nil => intro i tc; rfl
  | cons k rest ih =>
    intro i tc
    by_cases hw : tx.is_writable i d <;> simp [writeLockLoop, hw, ih]

lemma calculate_cost_writable_accounts (c : Consts) (m : CostModel)
    (tx : SanitizedTransaction) (d : Bool) :
    (CostModel.calculate_cost c m tx d).writable_accounts
      = writableKeys tx d 0 tx.accountKeys := by
  unfold CostModel.calculate_cost CostModel.get_write_lock_cost
  simp [writeLockLoop_writable_accounts, TransactionCost.new_with_capacity]

lemma calculate_cost_signature_cost (c : Consts) (m : CostModel)
    (tx : SanitizedTransaction) (d : Bool) :
    (CostModel.calculate_cost c m tx d).signature_cost
      = CostModel.get_signature_cost c tx := by
  unfold CostModel.calculate_cost CostModel.get_write_lock_cost
  simp [writeLockLoop_signature_cost]

lemma calculate_cost_write_lock_cost (c : Consts) (m : CostModel)
    (tx : SanitizedTransaction) (d : Bool) :
    (CostModel.calculate_cost c m tx d).write_lock_cost
      = c.WRITE_LOCK_UNITS * (writableKeys tx d 0 tx.accountKeys).length % U64MOD := by
  unfold CostModel.calculate_cost CostModel.get_write_lock_cost
  simp only [TransactionCost.new_with_capacity]
  rw [writeLockLoop_cost c tx d tx.accountKeys 0 _ U64MOD_pos]
  simp

lemma calculate_cost_data_bytes_cost (c : Consts) (m : CostModel)
    (tx : SanitizedTransaction) (d : Bool) :
    (CostModel.calculate_cost c m tx d).data_bytes_cost
      = CostModel.get_data_bytes_cost c tx := rfl

lemma calculate_cost_execution_cost (c : Consts) (m : CostModel)
    (tx : SanitizedTransaction) (d : Bool) :
    (CostModel.calculate_cost c m tx d).execution_cost
      = CostModel.get_transaction_cost m tx := rfl

lemma foldl_saturating_cost (m : CostModel) :
    ∀ (l : List (Pubkey × Nat)) (acc : Nat),
      (∀ p ∈ l, m.find_instruction_cost p.1 ≤ U64MAX) → acc ≤ U64MAX →
      l.foldl (fun cost p => saturating_add cost (m.find_instruction_cost p.1)) acc
        = min (acc + (l.map (fun p => m.find_instruction_cost p.1)).sum) U64MAX := by
  intro l
  induction l with
  | nil =>
    intro acc _ hacc
    simp only [List.foldl_nil, List.map_nil, List.sum_nil, Nat.add_zero]
    omega
  | cons p rest ih =>
    intro acc h hacc
    simp only [List.foldl_cons, List.map_cons, List.sum_cons]
    have hp : m.find_instruction_cost p.1 ≤ U64MAX := h p (List.mem_cons_self p rest)
    rw [ih (saturating_add acc (m.find_instruction_cost p.1))
        (fun q hq => h q (List.mem_cons_of_mem p hq))
        (by unfold saturating_add; exact min_le_right _ _)]
    unfold saturating_add
    omega

lemma sum_eq_mod (tc : TransactionCost) :
    tc.sum = (tc.signature_cost + tc.write_lock_cost + tc.data_bytes_cost
        + tc.execution_cost) % U64MOD := by
  have hM : U64MOD = 18446744073709551616 := by norm_num [U64MOD]
  unfold TransactionCost.sum
  rw [hM]
  omega

/-! ### Claims -/

/-- Claim C1 (amended): `TransactionCost::sum` returns the arithmetic sum of
the four cost fields reduced modulo `2 ^ 64` (plain wrapping `u64` addition);
whenever that arithmetic sum fits in a `u64` it is returned exactly. -/
theorem c1_sum_of_four_fields (tc : TransactionCost) :
    tc.sum = (tc.signature_cost + tc.write_lock_cost + tc.data_bytes_cost
        + tc.execution_cost) % U64MOD
    ∧ (tc.signature_cost + tc.write_lock_cost + tc.data_bytes_cost
          + tc.execution_cost < U64MOD →
        tc.sum = tc.signature_cost + tc.write_lock_cost + tc.data_bytes_cost
          + tc.execution_cost) := by
  refine ⟨sum_eq_mod tc, fun h => ?_⟩
  rw [sum_eq_mod tc, Nat.mod_eq_of_lt h]

/-- Witness for C1 at a concrete small `TransactionCost`. -/
theorem c1_sum_of_four_fields_witness :
    (3 : Nat) + 5 + 7 + 9 < U64MOD
    ∧ (TransactionCost.mk [] 3 5 7 9).sum = 3 + 5 + 7 + 9 :=
  ⟨by decide, (c1_sum_of_four_fields (TransactionCost.mk [] 3 5 7 9)).2 (by decide)⟩

/-- Counterexample to C1 as stated: with `signature_cost = u64::MAX` and
`write_lock_cost = 1` the Rust expression wraps to 0, which is not the
arithmetic sum `2 ^ 64` of the four fields. -/
theorem c1_sum_wraps_counterexample :
    (TransactionCost.mk [] U64MAX 1 0 0).sum
      ≠ (TransactionCost.mk [] U64MAX 1 0 0).signature_cost
        + (TransactionCost.mk [] U64MAX 1 0 0).write_lock_cost
        + (TransactionCost.mk [] U64MAX 1 0 0).data_bytes_cost
        + (TransactionCost.mk [] U64MAX 1 0 0).execution_cost := by
  decide

/-- Claim C2 (amended): only the execution-cost accumulator of
`get_transaction_cost` uses saturating addition — it clamps the sum of the
per-instruction costs at `u64::MAX` — while `TransactionCost::sum` (like the
signature, write-lock and data-bytes arithmetic) uses plain wrapping `u64`
addition, reducing modulo `2 ^ 64` instead of clamping. -/
theorem c2_only_execution_saturates (m : CostModel) (tx : SanitizedTransaction)
    (h : ∀ p ∈ tx.instructions, m.find_instruction_cost p.1 ≤ U64MAX) :
    CostModel.get_transaction_cost m tx
      = min ((tx.instructions.map (fun p => m.find_instruction_cost p.1)).sum) U64MAX
    ∧ ∀ tc : TransactionCost,
        tc.sum = (tc.signature_cost + tc.write_lock_cost + tc.data_bytes_cost
          + tc.execution_cost) % U64MOD := by
  constructor
  · unfold CostModel.get_transaction_cost
    rw [foldl_saturating_cost m tx.instructions 0 h (Nat.zero_le _)]
    simp
  · exact sum_eq_mod

/-- Witness for C2 at a concrete model and transaction. -/
theorem c2_only_execution_saturates_witness :
    (∀ p ∈ [((5 : Pubkey), (0 : Nat))],
        (CostModel.mk ⟨[(5, 11)]⟩).find_instruction_cost p.1 ≤ U64MAX)
    ∧ CostModel.get_transaction_cost (CostModel.mk ⟨[(5, 11)]⟩)
        (SanitizedTransaction.mk 1 [] (fun _ _ => false) [(5, 0)])
      = min ((([((5 : Pubkey), (0 : Nat))]).map
          (fun p => (CostModel.mk ⟨[(5, 11)]⟩).find_instruction_cost p.1)).sum) U64MAX :=
  ⟨by decide,
    (c2_only_execution_saturates (CostModel.mk ⟨[(5, 11)]⟩)
      (SanitizedTransaction.mk 1 [] (fun _ _ => false) [(5, 0)]) (by decide)).1⟩

/-- Counterexample to C2 as stated: `TransactionCost::sum` does not saturate;
at `signature_cost = u64::MAX` and `data_bytes_cost = 1` it wraps to 0 where
a saturating sum of the four fields would clamp to `u64::MAX`. -/
theorem c2_sum_does_not_saturate_counterexample :
    (TransactionCost.mk [] U64MAX 0 1 0).sum
      ≠ saturating_add (saturating_add (saturating_add
          (TransactionCost.mk [] U64MAX 0 1 0).signature_cost
          (TransactionCost.mk [] U64MAX 0 1 0).write_lock_cost)
          (TransactionCost.mk [] U64MAX 0 1 0).data_bytes_cost)
          (TransactionCost.mk [] U64MAX 0 1 0).execution_cost := by
  decide

/-- Claim C3: on a table with no entry for `k`, `upsert` stores `c1` verbatim
and returns it; a second `upsert` with `c2` replaces the entry with the
truncated average `(c1 + c2) / 2` and returns that stored value, not the
input. -/
theorem c3_upsert_inserts_then_averages (t : ExecuteCostTable) (k : Pubkey) (c1 c2 : Nat)
    (h : t.get_cost k = none) :
    (t.upsert k c1).2 = c1
    ∧ (t.upsert k c1).1.get_cost k = some c1
    ∧ ((t.upsert k c1).1.upsert k c2).2 = (c1 + c2) / 2
    ∧ ((t.upsert k c1).1.upsert k c2).1.get_cost k = some ((c1 + c2) / 2) := by
  have h1 : (t.upsert k c1).2 = c1 := by
    rw [upsert_snd, h]
  have h2 : (t.upsert k c1).1.get_cost k = some c1 := by
    have hs := get_cost_upsert_self t k c1
    rw [h1] at hs
    exact hs
  have h3 : ((t.upsert k c1).1.upsert k c2).2 = (c1 + c2) / 2 := by
    rw [upsert_snd, h2]
  have h4 : ((t.upsert k c1).1.upsert k c2).1.get_cost k = some ((c1 + c2) / 2) := by
    have hs := get_cost_upsert_self (t.upsert k c1).1 k c2
    rw [h3] at hs
    exact hs
  exact ⟨h1, h2, h3, h4⟩

/-- Witness for C3: the spec's own worked example, 100 then 200 gives 150. -/
theorem c3_upsert_inserts_then_averages_witness :
    (ExecuteCostTable.mk []).get_cost 1 = none
    ∧ ((ExecuteCostTable.mk []).upsert 1 100).1.get_cost 1 = some 100
    ∧ (((ExecuteCostTable.mk []).upsert 1 100).1.upsert 1 200).1.get_cost 1 = some 150 := by
  refine ⟨by decide, ?_, ?_⟩
  · exact (c3_upsert_inserts_then_averages (ExecuteCostTable.mk []) 1 100 200 (by decide)).2.1
  · have h := (c3_upsert_inserts_then_averages (ExecuteCostTable.mk []) 1 100 200 (by decide)).2.2.2
    simpa using h

/-- Claim C4: `calculate_cost`'s execution cost is the saturating fold of
`find_instruction_cost` over the instructions in program order;
`find_instruction_cost` of an id absent from the table is `get_mode()`, and on
an empty table the fallback is 0. -/
theorem c4_execution_cost_fold (c : Consts) (m : CostModel) (tx : SanitizedTransaction)
    (k : Pubkey) (d : Bool)
    (hk : m.instruction_execution_cost_table.get_cost k = none) :
    (CostModel.calculate_cost c m tx d).execution_cost
      = tx.instructions.foldl
          (fun cost p => saturating_add cost (m.find_instruction_cost p.1)) 0
    ∧ m.find_instruction_cost k = m.instruction_execution_cost_table.get_mode
    ∧ (ExecuteCostTable.mk []).get_mode = 0
    ∧ ∀ q : Pubkey, (CostModel.mk (ExecuteCostTable.mk [])).find_instruction_cost q = 0 := by
  refine ⟨calculate_cost_execution_cost c m tx d, ?_, rfl, fun q => rfl⟩
  unfold CostModel.find_instruction_cost
  rw [hk]

/-- Witness for C4 at an empty table and a one-instruction transaction. -/
theorem c4_execution_cost_fold_witness :
    (CostModel.mk (ExecuteCostTable.mk [])).instruction_execution_cost_table.get_cost 9 = none
    ∧ (CostModel.calculate_cost (Consts.mk 1 1 1 []) (CostModel.mk (ExecuteCostTable.mk []))
          (SanitizedTransaction.mk 1 [] (fun _ _ => false) [(9, 4)]) true).execution_cost
      = ([((9 : Pubkey), (4 : Nat))]).foldl
          (fun cost p =>
            saturating_add cost ((CostModel.mk (ExecuteCostTable.mk [])).find_instruction_cost p.1)) 0 :=
  ⟨by decide,
    (c4_execution_cost_fold (Consts.mk 1 1 1 []) (CostModel.mk (ExecuteCostTable.mk []))
      (SanitizedTransaction.mk 1 [] (fun _ _ => false) [(9, 4)]) 9 true (by decide)).1⟩

/-- Claim C8: `upsert_instruction_cost` returns `Ok` of the cost stored by the
upsert, and it returns the error exactly when the post-upsert re-read
(`get_cost` on the updated table) returns `None` — which the table semantics
rule out, so the error branch is unreachable. -/
theorem c8_upsert_error_iff_unreadable (m : CostModel) (k : Pubkey) (cost : Nat) :
    (CostModel.upsert_instruction_cost m k cost).2
      = UpsertOutcome.ok ((m.instruction_execution_cost_table.upsert k cost).2)
    ∧ ((CostModel.upsert_instruction_cost m k cost).2 = UpsertOutcome.err
        ↔ ((CostModel.upsert_instruction_cost m k
              cost).1).instruction_execution_cost_table.get_cost k = none) := by
  have hread := get_cost_upsert_self m.instruction_execution_cost_table k cost
  have key : CostModel.upsert_instruction_cost m k cost
      = (CostModel.mk (m.instruction_execution_cost_table.upsert k cost).1,
          UpsertOutcome.ok ((m.instruction_execution_cost_table.upsert k cost).2)) := by
    simp only [CostModel.upsert_instruction_cost, hread]
  rw [key]
  exact ⟨rfl, by simp [hread]⟩

/-- Claim C5 (amended): `calculate_cost` is a total function (the embedding
returns a `TransactionCost` for every input); for a transaction with N
signatures and zero instructions, `signature_cost = N * SIGNATURE_COST`
(modulo `2 ^ 64`, and exactly whenever the product fits in a `u64`),
`execution_cost = 0` and `data_bytes_cost = 0`, while `write_lock_cost` is
`WRITE_LOCK_UNITS` times the number of writable accounts — not necessarily
zero. -/
theorem c5_zero_instructions (c : Consts) (m : CostModel) (tx : SanitizedTransaction)
    (d : Bool) (h : tx.instructions = []) :
    (CostModel.calculate_cost c m tx d).signature_cost
        = tx.numSignatures * c.SIGNATURE_COST % U64MOD
    ∧ (tx.numSignatures * c.SIGNATURE_COST < U64MOD →
        (CostModel.calculate_cost c m tx d).signature_cost
          = tx.numSignatures * c.SIGNATURE_COST)
    ∧ (CostModel.calculate_cost c m tx d).execution_cost = 0
    ∧ (CostModel.calculate_cost c m tx d).data_bytes_cost = 0
    ∧ (CostModel.calculate_cost c m tx d).write_lock_cost
        = c.WRITE_LOCK_UNITS * (writableKeys tx d 0 tx.accountKeys).length % U64MOD := by
  refine ⟨calculate_cost_signature_cost c m tx d, fun hlt => ?_, ?_, ?_,
    calculate_cost_write_lock_cost c m tx d⟩
  · rw [calculate_cost_signature_cost c m tx d]
    unfold CostModel.get_signature_cost
    exact Nat.mod_eq_of_lt hlt
  · rw [calculate_cost_execution_cost]
    unfold CostModel.get_transaction_cost
    rw [h, List.foldl_nil]
  · rw [calculate_cost_data_bytes_cost]
    unfold CostModel.get_data_bytes_cost
    rw [h, List.foldl_nil]

/-- Witness for C5: three signatures, unit signature cost 2, no
instructions. -/
theorem c5_zero_instructions_witness :
    (3 : Nat) * 2 < U64MOD
    ∧ (CostModel.calculate_cost (Consts.mk 2 300 1 []) (CostModel.mk (ExecuteCostTable.mk []))
          (SanitizedTransaction.mk 3 [5] (fun _ _ => true) []) true).signature_cost = 3 * 2 :=
  ⟨by decide,
    (c5_zero_instructions (Consts.mk 2 300 1 []) (CostModel.mk (ExecuteCostTable.mk []))
      (SanitizedTransaction.mk 3 [5] (fun _ _ => true) []) true rfl).2.1 (by decide)⟩

/-- Counterexample to C5 as stated: a transaction with one signature, no
instructions and one writable account gets a nonzero `write_lock_cost`
(here `WRITE_LOCK_UNITS = 300`), so the fields other than `signature_cost`
are not all zero. -/
theorem c5_write_lock_nonzero_counterexample :
    (CostModel.calculate_cost (Consts.mk 1 300 1 []) (CostModel.mk (ExecuteCostTable.mk []))
        (SanitizedTransaction.mk 1 [5] (fun _ _ => true) []) true).write_lock_cost ≠ 0 := by
  decide

/-- Claim C6 (amended): starting from a fresh model, `initialize_cost_table`
stores a supplied entry verbatim when its id is not duplicated among the
entries and is not a built-in id; and for every built-in program id the
lookup after initialization is defined (`isSome`), whatever the supplied
entries were — built-ins are upserted after the external entries. -/
theorem c6_initialize_cost_table (c : Consts) (l1 l2 : List (Pubkey × Nat))
    (k b : Pubkey) (cost : Nat)
    (h1 : k ∉ l1.map Prod.fst) (h2 : k ∉ l2.map Prod.fst)
    (h3 : k ∉ c.BUILT_IN_INSTRUCTION_COSTS.map Prod.fst)
    (hb : b ∈ c.BUILT_IN_INSTRUCTION_COSTS.map Prod.fst) :
    (CostModel.initialize_cost_table c CostModel.new
        (l1 ++ (k, cost) :: l2)).instruction_execution_cost_table.get_cost k = some cost
    ∧ ∀ entries : List (Pubkey × Nat),
        ((CostModel.initialize_cost_table c CostModel.new
            entries).instruction_execution_cost_table.get_cost b).isSome := by
  constructor
  · show ((ExecuteCostTable.mk []).upsertAll
        ((l1 ++ (k, cost) :: l2) ++ c.BUILT_IN_INSTRUCTION_COSTS)).get_cost k = some cost
    rw [show (l1 ++ (k, cost) :: l2) ++ c.BUILT_IN_INSTRUCTION_COSTS
        = l1 ++ ((k, cost) :: (l2 ++ c.BUILT_IN_INSTRUCTION_COSTS)) by simp]
    rw [upsertAll_append, upsertAll_cons]
    have hnone : ((ExecuteCostTable.mk []).upsertAll l1).get_cost k = none := by
      rw [upsertAll_get_cost_not_mem h1]
      rfl
    have hmem : k ∉ (l2 ++ c.BUILT_IN_INSTRUCTION_COSTS).map Prod.fst := by
      simp only [List.map_append, List.mem_append]
      exact fun hx => hx.elim h2 h3
    rw [upsertAll_get_cost_not_mem hmem]
    have hs := get_cost_upsert_self ((ExecuteCostTable.mk []).upsertAll l1) k cost
    simp only [upsert_snd, hnone] at hs
    exact hs
  · intro entries
    show (((ExecuteCostTable.mk []).upsertAll
        (entries ++ c.BUILT_IN_INSTRUCTION_COSTS)).get_cost b).isSome
    rw [upsertAll_append]
    exact upsertAll_mem_isSome hb _

/-- Witness for C6: entries `[(2,10), (9,25), (3,30)]` with built-in baseline
`[(8,40)]`: id 9 keeps its verbatim cost and built-in 8 is defined even when
the entries omit it. -/
theorem c6_initialize_cost_table_witness :
    (CostModel.initialize_cost_table (Consts.mk 1 1 1 [(8, 40)]) CostModel.new
        ([(2, 10)] ++ (9, 25) :: [(3, 30)])).instruction_execution_cost_table.get_cost 9
      = some 25
    ∧ ((CostModel.initialize_cost_table (Consts.mk 1 1 1 [(8, 40)]) CostModel.new
        [(2, 10)]).instruction_execution_cost_table.get_cost 8).isSome :=
  ⟨(c6_initialize_cost_table (Consts.mk 1 1 1 [(8, 40)]) [(2, 10)] [(3, 30)] 9 8 25
      (by decide) (by decide) (by decide) (by decide)).1,
    (c6_initialize_cost_table (Consts.mk 1 1 1 [(8, 40)]) [(2, 10)] [(3, 30)] 9 8 25
      (by decide) (by decide) (by decide) (by decide)).2 [(2, 10)]⟩

/-- Counterexample to C6 as stated: with built-in baseline `[(7, 10)]` and
supplied entries `[(7, 20)]`, the lookup after initialization is the average
15, not the supplied cost 20 — the built-in upsert applied after the entry
averages with it. -/
theorem c6_overlap_counterexample :
    (CostModel.initialize_cost_table (Consts.mk 1 1 1 [(7, 10)]) CostModel.new
        [(7, 20)]).instruction_execution_cost_table.get_cost 7 ≠ some 20 := by
  decide

/-- Claim C7: `calculate_cost` collects exactly the writable accounts, in
account-list order, and charges `WRITE_LOCK_UNITS` per writable account; in
particular for an account list `[signer, non-signer]` with both writable
under the given demotion flag, the result is `[signer, non-signer]` with
write-lock cost `2 * WRITE_LOCK_UNITS`. -/
theorem c7_write_lock_order_and_cost (c : Consts) (m : CostModel)
    (tx : SanitizedTransaction) (d : Bool) :
    (CostModel.calculate_cost c m tx d).writable_accounts
        = writableKeys tx d 0 tx.accountKeys
    ∧ (CostModel.calculate_cost c m tx d).write_lock_cost
        = c.WRITE_LOCK_UNITS * (writableKeys tx d 0 tx.accountKeys).length % U64MOD
    ∧ ∀ s ns : Pubkey, tx.accountKeys = [s, ns] →
        tx.is_writable 0 d = true → tx.is_writable 1 d = true →
        2 * c.WRITE_LOCK_UNITS < U64MOD →
        (CostModel.calculate_cost c m tx d).writable_accounts = [s, ns]
        ∧ (CostModel.calculate_cost c m tx d).write_lock_cost
            = 2 * c.WRITE_LOCK_UNITS := by
  refine ⟨calculate_cost_writable_accounts c m tx d,
    calculate_cost_write_lock_cost c m tx d, ?_⟩
  intro s ns hkeys h0 h1 hW
  constructor
  · rw [calculate_cost_writable_accounts, hkeys]
    simp [writableKeys, h0, h1]
  · rw [calculate_cost_write_lock_cost, hkeys]
    have hlen : (writableKeys tx d 0 [s, ns]).length = 2 := by
      simp [writableKeys, h0, h1]
    rw [hlen, Nat.mul_comm, Nat.mod_eq_of_lt hW]

/-- Witness for C7: two accounts, both writable, demotion enabled,
`WRITE_LOCK_UNITS = 300`. -/
theorem c7_write_lock_order_and_cost_witness :
    (CostModel.calculate_cost (Consts.mk 1 300 1 []) (CostModel.mk (ExecuteCostTable.mk []))
        (SanitizedTransaction.mk 1 [4, 6] (fun _ _ => true) []) true).writable_accounts
      = [4, 6]
    ∧ (CostModel.calculate_cost (Consts.mk 1 300 1 []) (CostModel.mk (ExecuteCostTable.mk []))
        (SanitizedTransaction.mk 1 [4, 6] (fun _ _ => true) []) true).write_lock_cost
      = 600 :=
  (c7_write_lock_order_and_cost (Consts.mk 1 300 1 []) (CostModel.mk (ExecuteCostTable.mk []))
      (SanitizedTransaction.mk 1 [4, 6] (fun _ _ => true) []) true).2.2
    4 6 rfl rfl rfl (by decide)

/-- Claim C9: `calculate_cost` is a pure function of the transaction's
structural fields and the table snapshot: it takes the model immutably (the
embedding returns only the `TransactionCost`, never a modified model), and
two calls with the same transaction, demotion flag and table state produce
identical results. -/
theorem c9_calculate_cost_pure (c : Consts) (m1 m2 : CostModel)
    (tx : SanitizedTransaction) (d : Bool)
    (h : m1.instruction_execution_cost_table = m2.instruction_execution_cost_table) :
    CostModel.calculate_cost c m1 tx d = CostModel.calculate_cost c m2 tx d := by
  cases m1 with
  | mk t1 =>
    cases m2 with
    | mk t2 =>
      change t1 = t2 at h
      subst h
      rfl

/-- Witness for C9 at a concrete model, transaction and flag. -/
theorem c9_calculate_cost_pure_witness :
    (CostModel.mk (ExecuteCostTable.mk [(1, 2)])).instruction_execution_cost_table
        = (CostModel.mk (ExecuteCostTable.mk [(1, 2)])).instruction_execution_cost_table
    ∧ CostModel.calculate_cost (Consts.mk 1 1 1 []) (CostModel.mk (ExecuteCostTable.mk [(1, 2)]))
          (SanitizedTransaction.mk 1 [3] (fun _ _ => true) [(1, 8)]) true
        = CostModel.calculate_cost (Consts.mk 1 1 1 []) (CostModel.mk (ExecuteCostTable.mk [(1, 2)]))
          (SanitizedTransaction.mk 1 [3] (fun _ _ => true) [(1, 8)]) true :=
  ⟨rfl,
    c9_calculate_cost_pure (Consts.mk 1 1 1 []) (CostModel.mk (ExecuteCostTable.mk [(1, 2)]))
      (CostModel.mk (ExecuteCostTable.mk [(1, 2)]))
      (SanitizedTransaction.mk 1 [3] (fun _ _ => true) [(1, 8)]) true rfl⟩

/-- Claim C10: `MAX_WRITABLE_ACCOUNTS` (256) is only a pre-reserved capacity:
`calculate_cost` appends one entry per writable account with no truncation,
so a transaction with more than 256 writable accounts yields a
`writable_accounts` list longer than 256. -/
theorem c10_capacity_is_not_a_limit (c : Consts) (m : CostModel)
    (tx : SanitizedTransaction) (d : Bool)
    (h : MAX_WRITABLE_ACCOUNTS < (writableKeys tx d 0 tx.accountKeys).length) :
    (CostModel.calculate_cost c m tx d).writable_accounts.length
        = (writableKeys tx d 0 tx.accountKeys).length
    ∧ MAX_WRITABLE_ACCOUNTS < (CostModel.calculate_cost c m tx d).writable_accounts.length := by
  rw [calculate_cost_writable_accounts c m tx d]
  exact ⟨rfl, h⟩

set_option maxRecDepth 4000 in
/-- Witness for C10: 257 accounts, all writable, give a 257-element
writable-account list, exceeding `MAX_WRITABLE_ACCOUNTS`. -/
theorem c10_capacity_is_not_a_limit_witness :
    MAX_WRITABLE_ACCOUNTS
        < (writableKeys (SanitizedTransaction.mk 1 (List.replicate 257 0) (fun _ _ => true) [])
            true 0
            (SanitizedTransaction.mk 1 (List.replicate 257 0)
              (fun _ _ => true) []).accountKeys).length
    ∧ MAX_WRITABLE_ACCOUNTS
        < (CostModel.calculate_cost (Consts.mk 1 1 1 []) (CostModel.mk (ExecuteCostTable.mk []))
            (SanitizedTransaction.mk 1 (List.replicate 257 0) (fun _ _ => true) [])
            true).writable_accounts.length :=
  ⟨by decide,
    (c10_capacity_is_not_a_limit (Consts.mk 1 1 1 []) (CostModel.mk (ExecuteCostTable.mk []))
      (SanitizedTransaction.mk 1 (List.replicate 257 0) (fun _ _ => true) []) true
      (by decide)).2⟩
